import Mathlib

/-!
Shallow embedding of the `pgtype` UUID codec (`src/pgtype/uuid.go`).

Go strings and `[]byte` payloads are modelled as `List Char` / `List Nat`
(each byte a `Nat`, with `< 256` hypotheses where byte-ness matters).
The Go `[16]byte` array is a `List Nat` of length 16.  Fallible Go
functions returning `(T, error)` become `Except` / pairs with an
`Option UUIDError` slot.
-/

deriving instance DecidableEq for Except

namespace PgtypeUUID

/-- Errors from Go's `encoding/hex.Decode`: an invalid hex byte, or
`hex.ErrLength` for odd-length input. -/
inductive HexError where
  | invalidByte (c : Char)
  | errLength
deriving DecidableEq, Repr

/-- The errors produced by `uuid.go` via `fmt.Errorf`, plus hex-decoder
errors propagated unchanged.  Each constructor carries exactly the data the
corresponding Go format string interpolates. -/
inductive UUIDError where
  /-- `"cannot parse UUID %v"` with the source string. -/
  | cannotParse (s : List Char)
  /-- an error returned by `hex.DecodeString`, propagated unchanged. -/
  | hex (e : HexError)
  /-- `"invalid length for UUID: %v"` with the observed length. -/
  | invalidLength (n : Nat)
  /-- `"[]byte must be 16 bytes to convert to UUID: %d"` with the observed length. -/
  | byteSliceLength (n : Nat)
  /-- `"cannot convert %v to UUID"`. -/
  | cannotConvert
deriving DecidableEq, Repr

/-- The message text of the `fmt.Errorf` calls in `uuid.go`; `none` for
errors whose text is produced outside this file (the hex decoder). -/
def UUIDError.message : UUIDError → Option (List Char)
  | .cannotParse s => some (String.toList "cannot parse UUID " ++ s)
  | .invalidLength n => some (String.toList "invalid length for UUID: " ++ Nat.toDigits 10 n)
  | .byteSliceLength n =>
      some (String.toList "[]byte must be 16 bytes to convert to UUID: " ++ Nat.toDigits 10 n)
  | .hex _ => none
  | .cannotConvert => none

/-- `encoding/hex.fromHexChar`: the value of one hex digit. -/
def fromHexChar (c : Char) : Option Nat :=
  if '0' ≤ c ∧ c ≤ '9' then some (c.toNat - '0'.toNat)
  else if 'a' ≤ c ∧ c ≤ 'f' then some (c.toNat - 'a'.toNat + 10)
  else if 'A' ≤ c ∧ c ≤ 'F' then some (c.toNat - 'A'.toNat + 10)
  else none

/-- `encoding/hex.Decode` on a string: decodes hex digits two at a time;
the first invalid digit yields `InvalidByteError`, a trailing lone digit
yields `ErrLength`. -/
def hexDecode : List Char → Except HexError (List Nat)
  | [] => .ok []
  | [c] =>
    match fromHexChar c with
    | none => .error (.invalidByte c)
    | some _ => .error .errLength
  | p :: q :: rest =>
    match fromHexChar p with
    | none => .error (.invalidByte p)
    | some a =>
      match fromHexChar q with
      | none => .error (.invalidByte q)
      | some b =>
        match hexDecode rest with
        | .error e => .error e
        | .ok bs => .ok ((a * 16 + b) :: bs)

/-- The digit table of `encoding/hex` (`hextable`), lowercase. -/
def hexDigitChar (n : Nat) : Char :=
  if n < 10 then Char.ofNat ('0'.toNat + n) else Char.ofNat ('a'.toNat + (n - 10))

/-- `%x` of one byte: two lowercase hex digits, zero-padded. -/
def byteToHex (b : Nat) : List Char :=
  [hexDigitChar (b / 16), hexDigitChar (b % 16)]

/-- `%x` of a byte slice. -/
def bytesToHex : List Nat → List Char
  | [] => []
  | b :: bs => byteToHex b ++ bytesToHex bs

/-- The 36-character case of `parseUUID`:
`src[0:8] + src[9:13] + src[14:18] + src[19:23] + src[24:]` —
the characters at indices 8, 13, 18, 23 are dropped positionally. -/
def stripDashes (s : List Char) : List Char :=
  s.take 8 ++ ((s.drop 9).take 4) ++ ((s.drop 14).take 4) ++
    ((s.drop 19).take 4) ++ s.drop 24

/-- Go `copy(dst[:], buf)` into a zeroed 16-byte array: the first
`min 16 buf.length` bytes come from `buf`, the rest stay zero. -/
def copyInto16 (buf : List Nat) : List Nat :=
  buf.take 16 ++ List.replicate (16 - buf.length) 0

/-- `parseUUID` from `uuid.go`: accepts length 36 (dashes stripped
positionally) or length 32 (used as-is); any other length fails with
`cannot parse UUID %v`; the 32 remaining characters are hex-decoded,
hex errors propagated unchanged. -/
def parseUUID (src : List Char) : Except UUIDError (List Nat) :=
  let stripped : Except UUIDError (List Char) :=
    if src.length = 36 then .ok (stripDashes src)
    else if src.length = 32 then .ok src
    else .error (.cannotParse src)
  match stripped with
  | .error e => .error e
  | .ok s =>
    match hexDecode s with
    | .error e => .error (.hex e)
    | .ok buf => .ok (copyInto16 buf)

/-- `encodeUUID` from `uuid.go`:
`fmt.Sprintf("%x-%x-%x-%x-%x", src[0:4], src[4:6], src[6:8], src[8:10], src[10:16])`. -/
def encodeUUID (src : List Nat) : List Char :=
  bytesToHex (src.take 4) ++ '-' ::
    (bytesToHex ((src.drop 4).take 2) ++ '-' ::
      (bytesToHex ((src.drop 6).take 2) ++ '-' ::
        (bytesToHex ((src.drop 8).take 2) ++ '-' ::
          bytesToHex ((src.drop 10).take 6))))

/-- A lowercase hex digit character. -/
def isLowerHex (c : Char) : Bool :=
  ('0' ≤ c && c ≤ '9') || ('a' ≤ c && c ≤ 'f')

/-- A `UUIDDecoder` capability object (`DecodeUUID(*UUID) error`): external
to this file, so modelled by the error it returns when fed the container's
bytes and validity; its own populated state is opaque. -/
def Decoder := List Nat → Bool → Option UUIDError

/-- The `interface{}` values `Get` can return: Go `nil`, a `[16]byte`,
or something else (a getter override may return anything). -/
inductive GetResult where
  | goNil
  | bytes (b : List Nat)
  | other (tag : Nat)

/-- Destinations passed to `AssignTo`, by the runtime shapes its type
switch distinguishes: `*[16]byte`, `*[]byte`, `*string` (each carrying the
pointee's current value), a destination implementing `UUIDDecoder`, or any
other shape. -/
inductive AssignDst where
  | ptrArr16 (cur : List Nat)
  | ptrByteSlice (cur : Option (List Nat))
  | ptrString (cur : List Char)
  | decoderDst (d : Decoder)
  | otherDst (tag : Nat)

/-- The `UUID` struct: 16 bytes, validity flag, and the two injectable
hooks.  The Go `Getter` receives the whole struct; here it receives the
bytes and flag (the hook fields themselves are not data). -/
structure UUID where
  Bytes : List Nat
  Valid : Bool
  UUIDDecoderWrapper : Option (AssignDst → Option Decoder) := none
  Getter : Option (List Nat → Bool → GetResult) := none

/-- `NewTypeValue`: a fresh empty container inheriting both hooks. -/
def NewTypeValue (n : UUID) : UUID :=
  { Bytes := List.replicate 16 0, Valid := false,
    UUIDDecoderWrapper := n.UUIDDecoderWrapper, Getter := n.Getter }

/-- `setNil`: zero the bytes, clear the flag. -/
def setNil (dst : UUID) : UUID :=
  { dst with Bytes := List.replicate 16 0, Valid := false }

/-- `setByteArray`: store a `[16]byte`, set the flag. -/
def setByteArray (dst : UUID) (value : List Nat) : UUID :=
  { dst with Bytes := value, Valid := true }

/-- `setByteSlice`: a nil slice behaves like `setNil`; a non-nil slice
must have exactly 16 bytes or the length-mismatch error is returned with
the container untouched. -/
def setByteSlice (dst : UUID) (value : Option (List Nat)) : UUID × Option UUIDError :=
  match value with
  | some v =>
    if v.length ≠ 16 then (dst, some (.byteSliceLength v.length))
    else ({ dst with Bytes := v, Valid := true }, none)
  | none => (setNil dst, none)

/-- `setString`: parse, and only on success overwrite the container. -/
def setString (dst : UUID) (value : List Char) : UUID × Option UUIDError :=
  match parseUUID value with
  | .error e => (dst, some e)
  | .ok uuid => (setByteArray dst uuid, none)

/-- The `interface{}` sources `Set` dispatches on.  A value exposing a
`Get() interface{}` method is a `wrapper id`; what its `Get` returns is
looked up in a wrapper environment (Go values may reference each other, so
this is a map, not a subterm).  `underlying v` is a value the external
`underlyingUUIDType` resolver unwraps to `v`; `unknown` is a value neither
the type switch nor the resolver handles. -/
inductive SetSrc where
  | goNil
  | byteArr (b : List Nat)
  | byteSliceNil
  | byteSlice (b : List Nat)
  | str (s : List Char)
  | ptrStringNil
  | ptrString (s : List Char)
  | wrapper (id : Nat)
  | underlying (v : SetSrc)
  | unknown (tag : Nat)
deriving DecidableEq, Repr

/-- A wrapper environment: what `Get()` returns on each wrapper value.
`W id = .wrapper id` models a self-returning wrapper (Go identity
equality `value2 == value`). -/
def WrapperEnv := Nat → SetSrc

/-- `Set` from `uuid.go`, with explicit recursion fuel (`none` = the Go
call has not returned within `fuel` nested calls).  Order follows the
source: nil check, `Get()`-capability unwrap guarded by identity, then the
type switch with the `underlyingUUIDType` fallback. -/
def SetFuel (W : WrapperEnv) : Nat → UUID → SetSrc → Option (UUID × Option UUIDError)
  | 0, _, _ => none
  | _ + 1, dst, .goNil => some (setNil dst, none)
  | fuel + 1, dst, .wrapper id =>
    if W id ≠ .wrapper id then SetFuel W fuel dst (W id)
    else some (dst, some .cannotConvert)
  | _ + 1, dst, .byteArr b => some (setByteArray dst b, none)
  | _ + 1, dst, .byteSliceNil => some (setByteSlice dst none)
  | _ + 1, dst, .byteSlice b => some (setByteSlice dst (some b))
  | _ + 1, dst, .str s => some (setString dst s)
  | _ + 1, dst, .ptrStringNil => some (setNil dst, none)
  | _ + 1, dst, .ptrString s => some (setString dst s)
  | fuel + 1, dst, .underlying v => SetFuel W fuel dst v
  | _ + 1, dst, .unknown _ => some (dst, some .cannotConvert)

/-- `Get` from `uuid.go`: a getter override is authoritative; otherwise
invalid yields `nil` and valid yields the byte array. -/
def UUID.get (u : UUID) : GetResult :=
  match u.Getter with
  | some g => g u.Bytes u.Valid
  | none => if u.Valid = false then .goNil else .bytes u.Bytes

/-- `AssignTo` from `uuid.go`, parameterised by the two framework helpers
it calls (`NullAssignTo` and `GetAssignToDstType`, which live outside this
file) and fuelled for the recursion through `GetAssignToDstType`.
Returns the final destination state and error slot. -/
def AssignToFuel (nullAssignTo : AssignDst → AssignDst × Option UUIDError)
    (getAssignToDstType : AssignDst → Option AssignDst) :
    Nat → UUID → AssignDst → Option (AssignDst × Option UUIDError)
  | 0, _, _ => none
  | fuel + 1, src, dst =>
    match dst with
    | .decoderDst d => some (dst, d src.Bytes src.Valid)
    | _ =>
      let viaWrapper : Option Decoder :=
        match src.UUIDDecoderWrapper with
        | some w => w dst
        | none => none
      match viaWrapper with
      | some d => some (dst, d src.Bytes src.Valid)
      | none =>
        if src.Valid = false then some (nullAssignTo dst)
        else
          match dst with
          | .ptrArr16 _ => some (.ptrArr16 src.Bytes, none)
          | .ptrByteSlice _ => some (.ptrByteSlice (some (copyInto16 src.Bytes)), none)
          | .ptrString _ => some (.ptrString (encodeUUID src.Bytes), none)
          | d =>
            match getAssignToDstType d with
            | some nextDst => AssignToFuel nullAssignTo getAssignToDstType fuel src nextDst
            | none => some (d, none)

/-- `DecodeText`: nil payload sets null; otherwise the payload must be 36
bytes, then `parseUUID` runs and its result is stored. -/
def DecodeText (dst : UUID) (src : Option (List Char)) : UUID × Option UUIDError :=
  match src with
  | none => (setNil dst, none)
  | some s =>
    if s.length ≠ 36 then (dst, some (.invalidLength s.length))
    else
      match parseUUID s with
      | .error e => (dst, some e)
      | .ok buf => (setByteArray dst buf, none)

/-- `DecodeBinary`: nil payload sets null; otherwise the payload must be
16 bytes, then `setByteSlice` stores it. -/
def DecodeBinary (dst : UUID) (src : Option (List Nat)) : UUID × Option UUIDError :=
  match src with
  | none => (setNil dst, none)
  | some s =>
    if s.length ≠ 16 then (dst, some (.invalidLength s.length))
    else setByteSlice dst (some s)

/-- `EncodeText`: invalid yields the nil buffer (absence); valid appends
the canonical text to the caller's buffer.  The error slot is always nil. -/
def EncodeText (src : UUID) (buf : List Char) : Option (List Char) × Option UUIDError :=
  if src.Valid = false then (none, none)
  else (some (buf ++ encodeUUID src.Bytes), none)

/-- `EncodeBinary`: invalid yields the nil buffer; valid appends the raw
16 bytes. -/
def EncodeBinary (src : UUID) (buf : List Nat) : Option (List Nat) × Option UUIDError :=
  if src.Valid = false then (none, none)
  else (some (buf ++ src.Bytes), none)

/-- `MarshalJSON`: invalid yields the literal `null`; valid yields the
quoted canonical text. -/
def MarshalJSON (src : UUID) : List Char × Option UUIDError :=
  if src.Valid = false then (String.toList "null", none)
  else ('"' :: encodeUUID src.Bytes ++ ['"'], none)

/-- `UnmarshalJSON`: a byte-exact `null` runs `Set(nil)`; otherwise the
input must be exactly 38 bytes; then `src[1 : len(src)-1]` is passed to
`Set`, which on a string runs `setString`. -/
def UnmarshalJSON (dst : UUID) (src : List Char) : UUID × Option UUIDError :=
  if src = String.toList "null" then (setNil dst, none)
  else if src.length ≠ 38 then (dst, some (.invalidLength src.length))
  else setString dst ((src.drop 1).take (src.length - 2))

/-- The byte array of the spec's worked example,
`a0eebc99-9c0b-4ef8-bb6d-6bb9bd380a11`. -/
def uuidExampleBytes : List Nat :=
  [160, 238, 188, 153, 156, 11, 78, 248, 187, 109, 107, 185, 189, 56, 10, 17]

/-- An empty container: zero bytes, invalid, no hooks. -/
def emptyUUID : UUID := { Bytes := List.replicate 16 0, Valid := false }

/-- A valid container holding the example bytes, no hooks. -/
def exampleUUID : UUID := { Bytes := uuidExampleBytes, Valid := true }

/-- A wrapper environment with two mutually-returning wrappers: `Get()` on
wrapper 0 yields wrapper 1 and vice versa (neither is *identical* to what
it returns, so the identity guard in `Set` never stops the recursion). -/
def cycEnv : WrapperEnv := fun id => if id = 0 then .wrapper 1 else .wrapper 0

/-- No wrapper value occurs in the source (through `underlying` unwrapping). -/
def wrapperFree : SetSrc → Bool
  | .wrapper _ => false
  | .underlying v => wrapperFree v
  | _ => true

/-- Call depth sufficient for `SetFuel` to return on a given source term. -/
def srcSize : SetSrc → Nat
  | .underlying v => srcSize v + 1
  | _ => 1

theorem fromHexChar_hexDigitChar (n : Nat) (h : n < 16) :
    fromHexChar (hexDigitChar n) = some n := by
  interval_cases n <;> decide

theorem hexDecode_bytesToHex (bs : List Nat) (hb : ∀ b ∈ bs, b < 256) :
    hexDecode (bytesToHex bs) = .ok bs := by
  induction bs with
  | nil => rfl
  | cons b t ih =>
    have hb0 : b < 256 := hb b (List.mem_cons_self b t)
    have ht := ih (fun x hx => hb x (List.mem_cons_of_mem b hx))
    show hexDecode (hexDigitChar (b / 16) :: hexDigitChar (b % 16) :: bytesToHex t) = _
    rw [hexDecode, fromHexChar_hexDigitChar (b / 16) (by omega),
      fromHexChar_hexDigitChar (b % 16) (by omega), ht]
    show Except.ok ((b / 16 * 16 + b % 16) :: t) = Except.ok (b :: t)
    have hbq : b / 16 * 16 + b % 16 = b := by omega
    rw [hbq]

theorem list_eq_of_length_sixteen (bs : List Nat) (h : bs.length = 16) :
    ∃ b0 b1 b2 b3 b4 b5 b6 b7 b8 b9 b10 b11 b12 b13 b14 b15,
      bs = [b0, b1, b2, b3, b4, b5, b6, b7, b8, b9, b10, b11, b12, b13, b14, b15] := by
  obtain ⟨b0, t, rfl⟩ := List.exists_of_length_succ bs h
  simp only [List.length_cons] at h
  obtain ⟨b1, t, rfl⟩ := List.exists_of_length_succ t (show t.length = 14 + 1 by omega)
  simp only [List.length_cons] at h
  obtain ⟨b2, t, rfl⟩ := List.exists_of_length_succ t (show t.length = 13 + 1 by omega)
  simp only [List.length_cons] at h
  obtain ⟨b3, t, rfl⟩ := List.exists_of_length_succ t (show t.length = 12 + 1 by omega)
  simp only [List.length_cons] at h
  obtain ⟨b4, t, rfl⟩ := List.exists_of_length_succ t (show t.length = 11 + 1 by omega)
  simp only [List.length_cons] at h
  obtain ⟨b5, t, rfl⟩ := List.exists_of_length_succ t (show t.length = 10 + 1 by omega)
  simp only [List.length_cons] at h
  obtain ⟨b6, t, rfl⟩ := List.exists_of_length_succ t (show t.length = 9 + 1 by omega)
  simp only [List.length_cons] at h
  obtain ⟨b7, t, rfl⟩ := List.exists_of_length_succ t (show t.length = 8 + 1 by omega)
  simp only [List.length_cons] at h
  obtain ⟨b8, t, rfl⟩ := List.exists_of_length_succ t (show t.length = 7 + 1 by omega)
  simp only [List.length_cons] at h
  obtain ⟨b9, t, rfl⟩ := List.exists_of_length_succ t (show t.length = 6 + 1 by omega)
  simp only [List.length_cons] at h
  obtain ⟨b10, t, rfl⟩ := List.exists_of_length_succ t (show t.length = 5 + 1 by omega)
  simp only [List.length_cons] at h
  obtain ⟨b11, t, rfl⟩ := List.exists_of_length_succ t (show t.length = 4 + 1 by omega)
  simp only [List.length_cons] at h
  obtain ⟨b12, t, rfl⟩ := List.exists_of_length_succ t (show t.length = 3 + 1 by omega)
  simp only [List.length_cons] at h
  obtain ⟨b13, t, rfl⟩ := List.exists_of_length_succ t (show t.length = 2 + 1 by omega)
  simp only [List.length_cons] at h
  obtain ⟨b14, t, rfl⟩ := List.exists_of_length_succ t (show t.length = 1 + 1 by omega)
  simp only [List.length_cons] at h
  obtain ⟨b15, t, rfl⟩ := List.exists_of_length_succ t (show t.length = 0 + 1 by omega)
  simp only [List.length_cons] at h
  have ht : t = [] := List.eq_nil_of_length_eq_zero (by omega)
  subst ht
  exact ⟨b0, b1, b2, b3, b4, b5, b6, b7, b8, b9, b10, b11, b12, b13, b14, b15, rfl⟩

theorem parseUUID_encodeUUID (bs : List Nat) (hlen : bs.length = 16)
    (hb : ∀ b ∈ bs, b < 256) : parseUUID (encodeUUID bs) = .ok bs := by
  obtain ⟨b0, b1, b2, b3, b4, b5, b6, b7, b8, b9, b10, b11, b12, b13, b14, b15, rfl⟩ :=
    list_eq_of_length_sixteen bs hlen
  show (match hexDecode (stripDashes (encodeUUID
      [b0, b1, b2, b3, b4, b5, b6, b7, b8, b9, b10, b11, b12, b13, b14, b15])) with
    | .error e => Except.error (UUIDError.hex e)
    | .ok buf => Except.ok (copyInto16 buf)) = _
  have hstrip : stripDashes (encodeUUID
      [b0, b1, b2, b3, b4, b5, b6, b7, b8, b9, b10, b11, b12, b13, b14, b15]) =
      bytesToHex [b0, b1, b2, b3, b4, b5, b6, b7, b8, b9, b10, b11, b12, b13, b14, b15] := rfl
  rw [hstrip, hexDecode_bytesToHex _ hb]
  rfl

theorem isLowerHex_hexDigitChar (n : Nat) (h : n < 16) :
    isLowerHex (hexDigitChar n) = true := by
  interval_cases n <;> decide

theorem bytesToHex_all_isLowerHex (bs : List Nat) (hb : ∀ b ∈ bs, b < 256) :
    (bytesToHex bs).all isLowerHex = true := by
  induction bs with
  | nil => rfl
  | cons b t ih =>
    have hb0 : b < 256 := hb b (List.mem_cons_self b t)
    have ht := ih (fun x hx => hb x (List.mem_cons_of_mem b hx))
    show (hexDigitChar (b / 16) :: hexDigitChar (b % 16) :: bytesToHex t).all isLowerHex = true
    simp only [List.all_cons, isLowerHex_hexDigitChar (b / 16) (by omega),
      isLowerHex_hexDigitChar (b % 16) (by omega), ht, Bool.and_self]

/-- C1: for every 16-byte array `b`, `parseUUID (encodeUUID b) = b`, and
`encodeUUID` produces exactly the 36-character dashed form: dashes at
indices 8, 13, 18, 23, every other character a lowercase hex digit
(groups of 4/2/2/2/6 bytes by construction). -/
theorem parse_format_roundtrip (bs : List Nat) (hlen : bs.length = 16)
    (hb : ∀ b ∈ bs, b < 256) :
    parseUUID (encodeUUID bs) = Except.ok bs ∧
    (encodeUUID bs).length = 36 ∧
    (encodeUUID bs)[8]? = some '-' ∧
    (encodeUUID bs)[13]? = some '-' ∧
    (encodeUUID bs)[18]? = some '-' ∧
    (encodeUUID bs)[23]? = some '-' ∧
    (stripDashes (encodeUUID bs)).all isLowerHex = true := by
  refine ⟨parseUUID_encodeUUID bs hlen hb, ?_⟩
  obtain ⟨b0, b1, b2, b3, b4, b5, b6, b7, b8, b9, b10, b11, b12, b13, b14, b15, rfl⟩ :=
    list_eq_of_length_sixteen bs hlen
  refine ⟨rfl, rfl, rfl, rfl, rfl, ?_⟩
  have hstrip : stripDashes (encodeUUID
      [b0, b1, b2, b3, b4, b5, b6, b7, b8, b9, b10, b11, b12, b13, b14, b15]) =
      bytesToHex [b0, b1, b2, b3, b4, b5, b6, b7, b8, b9, b10, b11, b12, b13, b14, b15] := rfl
  rw [hstrip]
  exact bytesToHex_all_isLowerHex _ hb

/-- Witness for C1 at the spec's example byte array. -/
theorem parse_format_roundtrip_witness :
    uuidExampleBytes.length = 16 ∧ (∀ b ∈ uuidExampleBytes, b < 256) ∧
      (parseUUID (encodeUUID uuidExampleBytes) = Except.ok uuidExampleBytes ∧
       (encodeUUID uuidExampleBytes).length = 36 ∧
       (encodeUUID uuidExampleBytes)[8]? = some '-' ∧
       (encodeUUID uuidExampleBytes)[13]? = some '-' ∧
       (encodeUUID uuidExampleBytes)[18]? = some '-' ∧
       (encodeUUID uuidExampleBytes)[23]? = some '-' ∧
       (stripDashes (encodeUUID uuidExampleBytes)).all isLowerHex = true) :=
  ⟨by decide, by decide, parse_format_roundtrip uuidExampleBytes (by decide) (by decide)⟩

theorem hexDecode_ok_of_all_hex : ∀ (s : List Char), s.length % 2 = 0 →
    (∀ c ∈ s, (fromHexChar c).isSome) → ∃ bs, hexDecode s = .ok bs
  | [], _, _ => ⟨[], rfl⟩
  | [c], h, _ => by simp at h
  | p :: q :: rest, h, hall => by
    obtain ⟨a, ha⟩ := Option.isSome_iff_exists.mp (hall p (by simp))
    obtain ⟨b, hbv⟩ := Option.isSome_iff_exists.mp (hall q (by simp))
    obtain ⟨bs, hbs⟩ := hexDecode_ok_of_all_hex rest
      (by simp only [List.length_cons] at h; omega) (fun c hc => hall c (by simp [hc]))
    exact ⟨(a * 16 + b) :: bs, by simp [hexDecode, ha, hbv, hbs]⟩

theorem stripDashes_length (s : List Char) (h : s.length = 36) :
    (stripDashes s).length = 32 := by
  simp [stripDashes, h]

/-- Counterexample for C2: on input `abcde` (length 5, neither 36 nor 32)
`parseUUID` fails with `cannot parse UUID abcde` — an error citing the
offending *input*, whose message contains no digit character at all, so
it does not cite the offending length 5. -/
theorem parse_error_cites_input_not_length :
    parseUUID (String.toList "abcde") =
      Except.error (UUIDError.cannotParse (String.toList "abcde")) ∧
    (UUIDError.cannotParse (String.toList "abcde")).message =
      some (String.toList "cannot parse UUID abcde") ∧
    (String.toList "cannot parse UUID abcde").all (fun c => !c.isDigit) = true :=
  ⟨by decide, by decide, by decide⟩

/-- C2 (amended): `parseUUID` accepts exactly lengths 36 (dashes stripped
positionally at indices 8, 13, 18, 23, so a 36-character string with wrong
dash placement still parses whenever every non-dash-position character is
a valid hex digit) and 32; any other length fails with a parse error
carrying the offending *input string* (not its length); invalid hex digits
fail with the hex decoder's error propagated unchanged. -/
theorem parse_length_dispatch (s : List Char) :
    (s.length ≠ 36 → s.length ≠ 32 →
      parseUUID s = Except.error (UUIDError.cannotParse s)) ∧
    (s.length = 36 → ∀ e, hexDecode (stripDashes s) = .error e →
      parseUUID s = Except.error (UUIDError.hex e)) ∧
    (s.length = 36 → ∀ buf, hexDecode (stripDashes s) = .ok buf →
      parseUUID s = Except.ok (copyInto16 buf)) ∧
    (s.length = 36 → (∀ c ∈ stripDashes s, (fromHexChar c).isSome) →
      ∃ buf, parseUUID s = Except.ok buf) ∧
    (s.length = 32 → ∀ e, hexDecode s = .error e →
      parseUUID s = Except.error (UUIDError.hex e)) ∧
    (s.length = 32 → ∀ buf, hexDecode s = .ok buf →
      parseUUID s = Except.ok (copyInto16 buf)) := by
  refine ⟨?_, ?_, ?_, ?_, ?_, ?_⟩
  · intro h36 h32
    simp [parseUUID, h36, h32]
  · intro h36 e he
    simp [parseUUID, h36, he]
  · intro h36 buf hbuf
    simp [parseUUID, h36, hbuf]
  · intro h36 hall
    obtain ⟨bs, hbs⟩ := hexDecode_ok_of_all_hex (stripDashes s)
      (by rw [stripDashes_length s h36]) hall
    exact ⟨copyInto16 bs, by simp [parseUUID, h36, hbs]⟩
  · intro h32 e he
    simp [parseUUID, h32, he]
  · intro h32 buf hbuf
    simp [parseUUID, h32, hbuf]

/-- Witness for C2's amended theorem: a 36-character input whose first
dash is replaced by `X` still parses (the `X` sits at a stripped
position); a 32-character dashless input parses; a 3-character input
fails with the `cannot parse` error. -/
theorem parse_length_dispatch_witness :
    ((String.toList "a0eebc99X9c0b-4ef8-bb6d-6bb9bd380a11").length = 36 ∧
      (∃ buf, parseUUID (String.toList "a0eebc99X9c0b-4ef8-bb6d-6bb9bd380a11") =
        Except.ok buf)) ∧
    ((String.toList "a0eebc999c0b4ef8bb6d6bb9bd380a11").length = 32 ∧
      parseUUID (String.toList "a0eebc999c0b4ef8bb6d6bb9bd380a11") =
        Except.ok (copyInto16 uuidExampleBytes)) ∧
    ((String.toList "abc").length ≠ 36 ∧ (String.toList "abc").length ≠ 32 ∧
      parseUUID (String.toList "abc") =
        Except.error (UUIDError.cannotParse (String.toList "abc"))) :=
  ⟨⟨by decide,
    (parse_length_dispatch _).2.2.2.1 (by decide) (by decide)⟩,
   ⟨by decide,
    (parse_length_dispatch _).2.2.2.2.2 (by decide) uuidExampleBytes (by decide)⟩,
   ⟨by decide, by decide,
    (parse_length_dispatch _).1 (by decide) (by decide)⟩⟩

/-- C3: wire decoding validates lengths exactly.  `DecodeText` on a nil
payload sets invalid/null and succeeds; otherwise it requires exactly 36
bytes.  `DecodeBinary` on nil sets invalid/null; otherwise it requires
exactly 16 bytes.  Any other length errors with `invalid length for
UUID: %v`, naming the observed length. -/
theorem decode_wire_length_validation (dst : UUID) :
    (DecodeText dst none = (setNil dst, none) ∧ (setNil dst).Valid = false) ∧
    (∀ s, s.length ≠ 36 →
      DecodeText dst (some s) = (dst, some (UUIDError.invalidLength s.length))) ∧
    (∀ s buf, s.length = 36 → parseUUID s = .ok buf →
      DecodeText dst (some s) = (setByteArray dst buf, none)) ∧
    (DecodeBinary dst none = (setNil dst, none)) ∧
    (∀ b, b.length ≠ 16 →
      DecodeBinary dst (some b) = (dst, some (UUIDError.invalidLength b.length))) ∧
    (∀ b, b.length = 16 →
      DecodeBinary dst (some b) = ({ dst with Bytes := b, Valid := true }, none)) ∧
    (∀ n, (UUIDError.invalidLength n).message =
      some (String.toList "invalid length for UUID: " ++ Nat.toDigits 10 n)) := by
  refine ⟨⟨rfl, rfl⟩, ?_, ?_, rfl, ?_, ?_, fun n => rfl⟩
  · intro s hs
    simp [DecodeText, hs]
  · intro s buf hs hbuf
    simp [DecodeText, hs, hbuf]
  · intro b hb
    simp [DecodeBinary, hb]
  · intro b hb
    simp [DecodeBinary, setByteSlice, hb]

/-- Witness for C3: length 35 and 37 text payloads fail naming 35 / 37,
a 36-byte canonical payload decodes, length 15 and 17 binary payloads
fail naming 15 / 17, a 16-byte one decodes. -/
theorem decode_wire_length_validation_witness :
    ((String.toList "a0eebc99-9c0b-4ef8-bb6d-6bb9bd380a1").length = 35 ∧
      DecodeText emptyUUID (some (String.toList "a0eebc99-9c0b-4ef8-bb6d-6bb9bd380a1")) =
        (emptyUUID, some (UUIDError.invalidLength 35))) ∧
    ((String.toList "a0eebc99-9c0b-4ef8-bb6d-6bb9bd380a11X").length = 37 ∧
      DecodeText emptyUUID (some (String.toList "a0eebc99-9c0b-4ef8-bb6d-6bb9bd380a11X")) =
        (emptyUUID, some (UUIDError.invalidLength 37))) ∧
    (DecodeText emptyUUID (some (String.toList "a0eebc99-9c0b-4ef8-bb6d-6bb9bd380a11")) =
      (setByteArray emptyUUID uuidExampleBytes, none)) ∧
    (DecodeBinary emptyUUID (some (List.replicate 15 0)) =
      (emptyUUID, some (UUIDError.invalidLength 15))) ∧
    (DecodeBinary emptyUUID (some (List.replicate 17 0)) =
      (emptyUUID, some (UUIDError.invalidLength 17))) ∧
    (DecodeBinary emptyUUID (some uuidExampleBytes) =
      ({ emptyUUID with Bytes := uuidExampleBytes, Valid := true }, none)) := by
  refine ⟨⟨by decide, ?_⟩, ⟨by decide, ?_⟩, ?_, ?_, ?_, ?_⟩
  · exact (decode_wire_length_validation emptyUUID).2.1 _ (by decide)
  · exact (decode_wire_length_validation emptyUUID).2.1 _ (by decide)
  · exact (decode_wire_length_validation emptyUUID).2.2.1 _ uuidExampleBytes
      (by decide) (by decide)
  · exact (decode_wire_length_validation emptyUUID).2.2.2.2.1 _ (by decide)
  · exact (decode_wire_length_validation emptyUUID).2.2.2.2.1 _ (by decide)
  · exact (decode_wire_length_validation emptyUUID).2.2.2.2.2.1 _ (by decide)

/-- C4: `UnmarshalJSON` on the byte-exact literal `null` runs `Set(nil)`
(container becomes invalid); any other input must be exactly 38 bytes or
it fails naming the observed length; on a 38-byte input the first and last
bytes are stripped positionally — never validated as quotes — and the
inner 36-byte string goes to `Set`, i.e. `setString`. -/
theorem unmarshalJSON_rules (dst : UUID) :
    (UnmarshalJSON dst (String.toList "null") = (setNil dst, none) ∧
      (setNil dst).Valid = false) ∧
    (∀ src, src ≠ String.toList "null" → src.length ≠ 38 →
      UnmarshalJSON dst src = (dst, some (UUIDError.invalidLength src.length))) ∧
    (∀ src, src.length = 38 →
      UnmarshalJSON dst src = setString dst ((src.drop 1).take 36)) ∧
    (∀ W src, src.length = 38 →
      some (UnmarshalJSON dst src) = SetFuel W 1 dst (.str ((src.drop 1).take 36))) := by
  refine ⟨⟨rfl, rfl⟩, ?_, ?_, ?_⟩
  · intro src hnull hlen
    have hnull2 : ¬ src = ['n', 'u', 'l', 'l'] := hnull
    simp [UnmarshalJSON, hnull2, hlen]
  · intro src hlen
    have hnull2 : ¬ src = ['n', 'u', 'l', 'l'] := by
      intro h; rw [h] at hlen; simp at hlen
    simp [UnmarshalJSON, hnull2, hlen]
  · intro W src hlen
    have hnull2 : ¬ src = ['n', 'u', 'l', 'l'] := by
      intro h; rw [h] at hlen; simp at hlen
    simp [UnmarshalJSON, hnull2, hlen, SetFuel]

/-- Witness for C4: 37- and 39-byte inputs fail naming 37 / 39; a 38-byte
input whose first and last bytes are `X` and `Y` (not quotes) still has
its ends stripped and the inner canonical string stored via `Set`. -/
theorem unmarshalJSON_rules_witness :
    ((String.toList "a0eebc99-9c0b-4ef8-bb6d-6bb9bd380a11X").length = 37 ∧
      UnmarshalJSON emptyUUID (String.toList "a0eebc99-9c0b-4ef8-bb6d-6bb9bd380a11X") =
        (emptyUUID, some (UUIDError.invalidLength 37))) ∧
    ((String.toList "\"a0eebc99-9c0b-4ef8-bb6d-6bb9bd380a11\"X").length = 39 ∧
      UnmarshalJSON emptyUUID (String.toList "\"a0eebc99-9c0b-4ef8-bb6d-6bb9bd380a11\"X") =
        (emptyUUID, some (UUIDError.invalidLength 39))) ∧
    ((String.toList "Xa0eebc99-9c0b-4ef8-bb6d-6bb9bd380a11Y").length = 38 ∧
      UnmarshalJSON emptyUUID (String.toList "Xa0eebc99-9c0b-4ef8-bb6d-6bb9bd380a11Y") =
        setString emptyUUID (String.toList "a0eebc99-9c0b-4ef8-bb6d-6bb9bd380a11")) := by
  refine ⟨⟨by decide, ?_⟩, ⟨by decide, ?_⟩, ⟨by decide, ?_⟩⟩
  · exact (unmarshalJSON_rules emptyUUID).2.1 _ (by decide) (by decide)
  · exact (unmarshalJSON_rules emptyUUID).2.1 _ (by decide) (by decide)
  · exact (unmarshalJSON_rules emptyUUID).2.2.1 _ (by decide)

theorem setFuel_error_atomic (W : WrapperEnv) :
    ∀ (fuel : Nat) (dst : UUID) (src : SetSrc) (out : UUID) (e : UUIDError),
      SetFuel W fuel dst src = some (out, some e) → out = dst := by
  intro fuel
  induction fuel with
  | zero => intro dst src out e h; simp [SetFuel] at h
  | succ n ih =>
    intro dst src out e h
    cases src with
    | goNil => simp [SetFuel] at h
    | wrapper id =>
      rw [SetFuel] at h
      split at h
      · exact ih dst (W id) out e h
      · simp at h
        exact h.1.symm
    | byteArr b => simp [SetFuel, setByteArray] at h
    | byteSliceNil => simp [SetFuel, setByteSlice] at h
    | byteSlice b =>
      simp only [SetFuel, setByteSlice, Option.some.injEq] at h
      split at h
      · simp at h
        exact h.1.symm
      · simp at h
    | str s =>
      simp only [SetFuel, setString, Option.some.injEq] at h
      cases hp : parseUUID s with
      | error pe => rw [hp] at h; simp at h; exact h.1.symm
      | ok buf => rw [hp] at h; simp at h
    | ptrStringNil => simp [SetFuel] at h
    | ptrString s =>
      simp only [SetFuel, setString, Option.some.injEq] at h
      cases hp : parseUUID s with
      | error pe => rw [hp] at h; simp at h; exact h.1.symm
      | ok buf => rw [hp] at h; simp at h
    | underlying v =>
      rw [SetFuel] at h
      exact ih dst v out e h
    | unknown tag =>
      simp [SetFuel] at h
      exact h.1.symm

/-- C10: every error-returning path of `Set`, `DecodeText`,
`DecodeBinary` and `UnmarshalJSON` returns the container with bytes and
validity flag exactly as they were before the call. -/
theorem error_paths_atomic :
    (∀ (W : WrapperEnv) (fuel : Nat) (dst : UUID) (src : SetSrc) (out : UUID) (e : UUIDError),
      SetFuel W fuel dst src = some (out, some e) → out = dst) ∧
    (∀ (dst : UUID) (src : Option (List Char)) (out : UUID) (e : UUIDError),
      DecodeText dst src = (out, some e) → out = dst) ∧
    (∀ (dst : UUID) (src : Option (List Nat)) (out : UUID) (e : UUIDError),
      DecodeBinary dst src = (out, some e) → out = dst) ∧
    (∀ (dst : UUID) (src : List Char) (out : UUID) (e : UUIDError),
      UnmarshalJSON dst src = (out, some e) → out = dst) := by
  refine ⟨setFuel_error_atomic, ?_, ?_, ?_⟩
  · intro dst src out e h
    cases src with
    | none => simp [DecodeText] at h
    | some s =>
      simp only [DecodeText] at h
      split at h
      · simp at h; exact h.1.symm
      · cases hp : parseUUID s with
        | error pe => rw [hp] at h; simp at h; exact h.1.symm
        | ok buf => rw [hp] at h; simp [setByteArray] at h
  · intro dst src out e h
    cases src with
    | none => simp [DecodeBinary] at h
    | some b =>
      simp only [DecodeBinary] at h
      split at h
      · simp at h; exact h.1.symm
      · simp only [setByteSlice] at h
        split at h
        · simp at h; exact h.1.symm
        · simp at h
  · intro dst src out e h
    simp only [UnmarshalJSON] at h
    split at h
    · simp at h
    · split at h
      · simp at h; exact h.1.symm
      · simp only [setString] at h
        cases hp : parseUUID ((src.drop 1).take (src.length - 2)) with
        | error pe => rw [hp] at h; simp at h; exact h.1.symm
        | ok buf => rw [hp] at h; simp [setByteArray] at h

/-- Witness for C10: concrete failing calls (a 2-byte slice to `Set`, a
3-byte text payload, a 3-byte binary payload, a 3-byte JSON input) each
return the container unchanged alongside their error. -/
theorem error_paths_atomic_witness :
    (SetFuel (fun _ => SetSrc.goNil) 1 exampleUUID (SetSrc.byteSlice [1, 2]) =
      some (exampleUUID, some (UUIDError.byteSliceLength 2)) ∧
      ((SetFuel (fun _ => SetSrc.goNil) 1 exampleUUID
        (SetSrc.byteSlice [1, 2])).getD (emptyUUID, none)).1 = exampleUUID) ∧
    (DecodeText exampleUUID (some (String.toList "abc")) =
      (exampleUUID, some (UUIDError.invalidLength 3)) ∧
      (DecodeText exampleUUID (some (String.toList "abc"))).1 = exampleUUID) ∧
    (DecodeBinary exampleUUID (some [1, 2, 3]) =
      (exampleUUID, some (UUIDError.invalidLength 3)) ∧
      (DecodeBinary exampleUUID (some [1, 2, 3])).1 = exampleUUID) ∧
    (UnmarshalJSON exampleUUID (String.toList "abc") =
      (exampleUUID, some (UUIDError.invalidLength 3)) ∧
      (UnmarshalJSON exampleUUID (String.toList "abc")).1 = exampleUUID) :=
  ⟨⟨rfl, error_paths_atomic.1 (fun _ => SetSrc.goNil) 1 exampleUUID
      (SetSrc.byteSlice [1, 2]) _ (UUIDError.byteSliceLength 2) rfl⟩,
   ⟨rfl, error_paths_atomic.2.1 exampleUUID (some (String.toList "abc")) _
      (UUIDError.invalidLength 3) rfl⟩,
   ⟨rfl, error_paths_atomic.2.2.1 exampleUUID (some [1, 2, 3]) _
      (UUIDError.invalidLength 3) rfl⟩,
   ⟨rfl, error_paths_atomic.2.2.2 exampleUUID (String.toList "abc") _
      (UUIDError.invalidLength 3) rfl⟩⟩

/-- C7: null is handled uniformly: `Set(nil)` followed by `Get()` yields
the null sentinel; encoding an invalid container in any wire or JSON form
yields its no-value/null representation — in particular `MarshalJSON` of
an invalid container is exactly the 4 bytes `null`. -/
theorem null_handling_uniform (u : UUID) (hg : u.Getter = none) :
    (∀ (W : WrapperEnv) (fuel : Nat),
      SetFuel W (fuel + 1) u SetSrc.goNil = some (setNil u, none)) ∧
    (setNil u).get = GetResult.goNil ∧
    (∀ v : UUID, v.Valid = false → ∀ (buf : List Char) (bbuf : List Nat),
      MarshalJSON v = (String.toList "null", none) ∧
      (String.toList "null").length = 4 ∧
      EncodeText v buf = (none, none) ∧
      EncodeBinary v bbuf = (none, none)) := by
  refine ⟨fun W fuel => rfl, ?_, ?_⟩
  · simp [UUID.get, setNil, hg]
  · intro v hv buf bbuf
    refine ⟨?_, rfl, ?_, ?_⟩ <;> simp [MarshalJSON, EncodeText, EncodeBinary, hv]

/-- Witness for C7 on concrete containers with no getter override. -/
theorem null_handling_uniform_witness :
    exampleUUID.Getter = none ∧
    SetFuel (fun _ => SetSrc.goNil) 1 exampleUUID SetSrc.goNil =
      some (setNil exampleUUID, none) ∧
    (setNil exampleUUID).get = GetResult.goNil ∧
    emptyUUID.Valid = false ∧
    MarshalJSON emptyUUID = (String.toList "null", none) ∧
    EncodeText emptyUUID [] = (none, none) ∧
    EncodeBinary emptyUUID [] = (none, none) :=
  ⟨rfl,
   (null_handling_uniform exampleUUID rfl).1 (fun _ => SetSrc.goNil) 0,
   (null_handling_uniform exampleUUID rfl).2.1,
   rfl,
   ((null_handling_uniform exampleUUID rfl).2.2 emptyUUID rfl [] []).1,
   ((null_handling_uniform exampleUUID rfl).2.2 emptyUUID rfl [] []).2.2.1,
   ((null_handling_uniform exampleUUID rfl).2.2 emptyUUID rfl [] []).2.2.2⟩

/-- C8: `Set` with a byte-slice source stores it and marks the container
valid exactly when the slice has 16 bytes; every other length fails with
the length-mismatch error whose message includes the observed length; a
nil slice sets the container invalid without error; a stored 16-byte
slice is then returned by `Get()`. -/
theorem set_byte_slice_rules (dst : UUID) (W : WrapperEnv) (fuel : Nat) :
    (∀ b, b.length = 16 → SetFuel W (fuel + 1) dst (.byteSlice b) =
      some ({ dst with Bytes := b, Valid := true }, none)) ∧
    (∀ b, b.length ≠ 16 → SetFuel W (fuel + 1) dst (.byteSlice b) =
      some (dst, some (UUIDError.byteSliceLength b.length))) ∧
    (SetFuel W (fuel + 1) dst .byteSliceNil = some (setNil dst, none) ∧
      (setNil dst).Valid = false) ∧
    (∀ n, (UUIDError.byteSliceLength n).message =
      some (String.toList "[]byte must be 16 bytes to convert to UUID: " ++
        Nat.toDigits 10 n)) ∧
    (∀ b, b.length = 16 → dst.Getter = none →
      ({ dst with Bytes := b, Valid := true } : UUID).get = GetResult.bytes b) := by
  refine ⟨?_, ?_, ⟨rfl, rfl⟩, fun n => rfl, ?_⟩
  · intro b hb
    simp [SetFuel, setByteSlice, hb]
  · intro b hb
    simp [SetFuel, setByteSlice, hb]
  · intro b hb hg
    simp [UUID.get, hg]

/-- Witness for C8: the spec's example — a 16-byte slice is stored and
`Get` returns it; a 2-byte slice fails reporting length 2. -/
theorem set_byte_slice_rules_witness :
    SetFuel (fun _ => SetSrc.goNil) 1 emptyUUID (SetSrc.byteSlice uuidExampleBytes) =
      some ({ emptyUUID with Bytes := uuidExampleBytes, Valid := true }, none) ∧
    ({ emptyUUID with Bytes := uuidExampleBytes, Valid := true } : UUID).get =
      GetResult.bytes uuidExampleBytes ∧
    SetFuel (fun _ => SetSrc.goNil) 1 emptyUUID (SetSrc.byteSlice [1, 2]) =
      some (emptyUUID, some (UUIDError.byteSliceLength 2)) ∧
    (UUIDError.byteSliceLength 2).message =
      some (String.toList "[]byte must be 16 bytes to convert to UUID: 2") :=
  ⟨(set_byte_slice_rules emptyUUID (fun _ => SetSrc.goNil) 0).1 _ (by decide),
   (set_byte_slice_rules emptyUUID (fun _ => SetSrc.goNil) 0).2.2.2.2 _ (by decide) rfl,
   (set_byte_slice_rules emptyUUID (fun _ => SetSrc.goNil) 0).2.1 _ (by decide),
   (set_byte_slice_rules emptyUUID (fun _ => SetSrc.goNil) 0).2.2.2.1 2⟩

theorem bytesToHex_length (bs : List Nat) : (bytesToHex bs).length = 2 * bs.length := by
  induction bs with
  | nil => rfl
  | cons b t ih =>
    show (byteToHex b ++ bytesToHex t).length = 2 * (t.length + 1)
    simp [byteToHex, ih]
    omega

theorem encodeUUID_length (bs : List Nat) (h : bs.length = 16) :
    (encodeUUID bs).length = 36 := by
  simp [encodeUUID, bytesToHex_length, h]

/-- C5: for every valid container `v`, decoding the output of `v`'s text
encoder with the text decoder, and of `v`'s binary encoder with the
binary decoder, reproduces a container whose bytes and validity equal
`v`'s, with no error. -/
theorem encode_decode_roundtrip (v u : UUID) (hv : v.Valid = true)
    (hlen : v.Bytes.length = 16) (hb : ∀ b ∈ v.Bytes, b < 256) :
    EncodeText v [] = (some (encodeUUID v.Bytes), none) ∧
    (DecodeText u (some (encodeUUID v.Bytes))).1.Bytes = v.Bytes ∧
    (DecodeText u (some (encodeUUID v.Bytes))).1.Valid = v.Valid ∧
    (DecodeText u (some (encodeUUID v.Bytes))).2 = none ∧
    EncodeBinary v [] = (some v.Bytes, none) ∧
    (DecodeBinary u (some v.Bytes)).1.Bytes = v.Bytes ∧
    (DecodeBinary u (some v.Bytes)).1.Valid = v.Valid ∧
    (DecodeBinary u (some v.Bytes)).2 = none := by
  have htext : DecodeText u (some (encodeUUID v.Bytes)) =
      (setByteArray u v.Bytes, none) := by
    simp [DecodeText, encodeUUID_length v.Bytes hlen,
      parseUUID_encodeUUID v.Bytes hlen hb]
  have hbin : DecodeBinary u (some v.Bytes) =
      ({ u with Bytes := v.Bytes, Valid := true }, none) := by
    simp [DecodeBinary, setByteSlice, hlen]
  refine ⟨by simp [EncodeText, hv], ?_, ?_, ?_, by simp [EncodeBinary, hv], ?_, ?_, ?_⟩
  · rw [htext]; rfl
  · rw [htext, hv]; rfl
  · rw [htext]
  · rw [hbin]
  · rw [hbin, hv]
  · rw [hbin]

/-- Witness for C5 at the example container. -/
theorem encode_decode_roundtrip_witness :
    exampleUUID.Valid = true ∧
    EncodeText exampleUUID [] = (some (encodeUUID exampleUUID.Bytes), none) ∧
    (DecodeText emptyUUID (some (encodeUUID exampleUUID.Bytes))).1.Bytes =
      exampleUUID.Bytes ∧
    (DecodeText emptyUUID (some (encodeUUID exampleUUID.Bytes))).1.Valid =
      exampleUUID.Valid ∧
    EncodeBinary exampleUUID [] = (some exampleUUID.Bytes, none) ∧
    (DecodeBinary emptyUUID (some exampleUUID.Bytes)).1.Bytes = exampleUUID.Bytes ∧
    (DecodeBinary emptyUUID (some exampleUUID.Bytes)).1.Valid = exampleUUID.Valid :=
  ⟨rfl,
   (encode_decode_roundtrip exampleUUID emptyUUID rfl (by decide) (by decide)).1,
   (encode_decode_roundtrip exampleUUID emptyUUID rfl (by decide) (by decide)).2.1,
   (encode_decode_roundtrip exampleUUID emptyUUID rfl (by decide) (by decide)).2.2.1,
   (encode_decode_roundtrip exampleUUID emptyUUID rfl (by decide) (by decide)).2.2.2.2.1,
   (encode_decode_roundtrip exampleUUID emptyUUID rfl (by decide) (by decide)).2.2.2.2.2.1,
   (encode_decode_roundtrip exampleUUID emptyUUID rfl (by decide)
     (by decide)).2.2.2.2.2.2.1⟩

/-- C6: `AssignTo` of a valid container (no wrapper hook) into a
pointer-to-string destination writes the canonical 36-character dashed
form; on a destination of no known shape, when the framework offers no
alternative destination type, it succeeds as a silent no-op leaving the
destination untouched; and when the null-assign helper never fails and no
decoder capability is reachable, no path returns an error. -/
theorem assignTo_rules (na : AssignDst → AssignDst × Option UUIDError)
    (gn : AssignDst → Option AssignDst) (src : UUID)
    (hw : src.UUIDDecoderWrapper = none) (hv : src.Valid = true)
    (hlen : src.Bytes.length = 16) :
    (∀ (s : List Char) (fuel : Nat),
      AssignToFuel na gn (fuel + 1) src (.ptrString s) =
        some (.ptrString (encodeUUID src.Bytes), none) ∧
      (encodeUUID src.Bytes).length = 36) ∧
    (∀ (tag : Nat) (fuel : Nat), gn (.otherDst tag) = none →
      AssignToFuel na gn (fuel + 1) src (.otherDst tag) =
        some (.otherDst tag, none)) ∧
    (∀ (fuel : Nat) (dst : AssignDst) (out : AssignDst) (err : Option UUIDError),
      (∀ d, (na d).2 = none) →
      (∀ d d2, gn d = some d2 → ∀ f : Decoder, d2 ≠ .decoderDst f) →
      (∀ f : Decoder, dst ≠ .decoderDst f) →
      AssignToFuel na gn fuel src dst = some (out, err) → err = none) := by
  refine ⟨?_, ?_, ?_⟩
  · intro s fuel
    exact ⟨by simp [AssignToFuel, hw, hv], encodeUUID_length src.Bytes hlen⟩
  · intro tag fuel hgn
    simp [AssignToFuel, hw, hv, hgn]
  · intro fuel
    induction fuel with
    | zero =>
      intro dst out err hna hgn hdst h
      simp [AssignToFuel] at h
    | succ n ih =>
      intro dst out err hna hgn hdst h
      cases dst with
      | decoderDst f => exact absurd rfl (hdst f)
      | ptrArr16 cur =>
        simp [AssignToFuel, hw, hv] at h
        exact h.2.symm
      | ptrByteSlice cur =>
        simp [AssignToFuel, hw, hv] at h
        exact h.2.symm
      | ptrString cur =>
        simp [AssignToFuel, hw, hv] at h
        exact h.2.symm
      | otherDst tag =>
        simp only [AssignToFuel, hw, hv] at h
        cases hngn : gn (.otherDst tag) with
        | none =>
          rw [hngn] at h
          simp at h
          exact h.2.symm
        | some next =>
          rw [hngn] at h
          exact ih next out err hna hgn (fun f => hgn _ next hngn f) h

/-- Witness for C6: with no wrapper hook, a never-failing null-assign
helper and a resolver offering no alternative, `AssignTo` writes the
canonical string into a string destination, no-ops on an unknown
destination, and its error slot is `none`. -/
theorem assignTo_rules_witness :
    (AssignToFuel (fun d => (d, none)) (fun _ => none) 1 exampleUUID
      (AssignDst.ptrString []) =
        some (.ptrString (encodeUUID exampleUUID.Bytes), none) ∧
      (encodeUUID exampleUUID.Bytes).length = 36) ∧
    (AssignToFuel (fun d => (d, none)) (fun _ => none) 1 exampleUUID
      (AssignDst.otherDst 7) = some (.otherDst 7, none)) ∧
    ((AssignToFuel (fun d => (d, none)) (fun _ => none) 1 exampleUUID
      (AssignDst.otherDst 7)).getD (AssignDst.otherDst 0, none)).2 = none :=
  ⟨(assignTo_rules (fun d => (d, none)) (fun _ => none) exampleUUID rfl rfl
      (by decide)).1 [] 0,
   (assignTo_rules (fun d => (d, none)) (fun _ => none) exampleUUID rfl rfl
      (by decide)).2.1 7 0 rfl,
   (assignTo_rules (fun d => (d, none)) (fun _ => none) exampleUUID rfl rfl
      (by decide)).2.2 1 (AssignDst.otherDst 7) _ _
      (fun d => rfl) (fun d d2 h => nomatch h) (fun f h => nomatch h) rfl⟩

theorem setFuel_terminates_of_wrapperFree (W : WrapperEnv) (dst : UUID) :
    ∀ src, wrapperFree src = true → ∃ out, SetFuel W (srcSize src) dst src = some out := by
  intro src
  induction src with
  | goNil => exact fun _ => ⟨_, rfl⟩
  | byteArr b => exact fun _ => ⟨_, rfl⟩
  | byteSliceNil => exact fun _ => ⟨_, rfl⟩
  | byteSlice b => exact fun _ => ⟨_, rfl⟩
  | str s => exact fun _ => ⟨_, rfl⟩
  | ptrStringNil => exact fun _ => ⟨_, rfl⟩
  | ptrString s => exact fun _ => ⟨_, rfl⟩
  | wrapper id => intro h; simp [wrapperFree] at h
  | underlying v ih =>
    intro h
    rw [wrapperFree] at h
    obtain ⟨out, hout⟩ := ih h
    exact ⟨out, by rw [srcSize, SetFuel]; exact hout⟩
  | unknown tag => exact fun _ => ⟨_, rfl⟩

theorem setFuel_cycEnv_diverges (fuel : Nat) :
    SetFuel cycEnv fuel emptyUUID (.wrapper 0) = none ∧
    SetFuel cycEnv fuel emptyUUID (.wrapper 1) = none := by
  induction fuel with
  | zero => exact ⟨rfl, rfl⟩
  | succ n ih =>
    constructor
    · rw [show SetFuel cycEnv (n + 1) emptyUUID (.wrapper 0) =
          SetFuel cycEnv n emptyUUID (.wrapper 1) by simp [SetFuel, cycEnv]]
      exact ih.2
    · rw [show SetFuel cycEnv (n + 1) emptyUUID (.wrapper 1) =
          SetFuel cycEnv n emptyUUID (.wrapper 0) by simp [SetFuel, cycEnv]]
      exact ih.1

/-- Counterexample for C9: two mutually-returning wrapper values (each
`Get()` yields the other, so the identity guard never stops the
recursion) make `Set` recurse forever — at no recursion depth does the
call return, refuting "Set terminates on every source". -/
theorem set_cyclic_wrappers_diverge :
    ¬ ∃ fuel out, SetFuel cycEnv fuel emptyUUID (SetSrc.wrapper 0) = some out := by
  rintro ⟨fuel, out, h⟩
  rw [(setFuel_cycEnv_diverges fuel).1] at h
  exact Option.noConfusion h

/-- C9 (amended): `Set` unwraps a `Get()`-capable source and recurses
only when the unwrapped value is not identical to the original source, so
a self-returning wrapper causes no recursion and falls through to the
conversion failure; `Set` terminates on every source whose unwrapping
chain is wrapper-free — in particular on every wrapper-free source and on
any wrapper unwrapping to a wrapper-free value — though not on cyclic
wrapper chains. -/
theorem set_unwrap_guard (W : WrapperEnv) (dst : UUID) :
    (∀ (id : Nat) (fuel : Nat), W id ≠ .wrapper id →
      SetFuel W (fuel + 1) dst (.wrapper id) = SetFuel W fuel dst (W id)) ∧
    (∀ (id : Nat) (fuel : Nat), W id = .wrapper id →
      SetFuel W (fuel + 1) dst (.wrapper id) =
        some (dst, some UUIDError.cannotConvert)) ∧
    (∀ src, wrapperFree src = true →
      ∃ out, SetFuel W (srcSize src) dst src = some out) ∧
    (∀ id, W id ≠ .wrapper id → wrapperFree (W id) = true →
      ∃ out, SetFuel W (srcSize (W id) + 1) dst (.wrapper id) = some out) := by
  refine ⟨?_, ?_, setFuel_terminates_of_wrapperFree W dst, ?_⟩
  · intro id fuel h
    simp [SetFuel, h]
  · intro id fuel h
    simp [SetFuel, h]
  · intro id hne hfree
    obtain ⟨out, hout⟩ := setFuel_terminates_of_wrapperFree W dst (W id) hfree
    refine ⟨out, ?_⟩
    rw [show SetFuel W (srcSize (W id) + 1) dst (.wrapper id) =
        SetFuel W (srcSize (W id)) dst (W id) by simp [SetFuel, hne]]
    exact hout

/-- Witness for C9's amended theorem: a wrapper unwrapping to `nil`
recurses once; a self-returning wrapper immediately fails conversion; a
wrapper-free source and a single-level wrapper both terminate. -/
theorem set_unwrap_guard_witness :
    (SetFuel (fun _ => SetSrc.goNil) 2 emptyUUID (SetSrc.wrapper 0) =
      SetFuel (fun _ => SetSrc.goNil) 1 emptyUUID SetSrc.goNil) ∧
    (SetFuel (fun i => SetSrc.wrapper i) 1 emptyUUID (SetSrc.wrapper 0) =
      some (emptyUUID, some UUIDError.cannotConvert)) ∧
    (∃ out, SetFuel (fun _ => SetSrc.goNil)
      (srcSize (SetSrc.underlying (SetSrc.byteArr uuidExampleBytes))) emptyUUID
      (SetSrc.underlying (SetSrc.byteArr uuidExampleBytes)) = some out) ∧
    (∃ out, SetFuel (fun _ => SetSrc.goNil) (srcSize SetSrc.goNil + 1) emptyUUID
      (SetSrc.wrapper 0) = some out) :=
  ⟨(set_unwrap_guard (fun _ => SetSrc.goNil) emptyUUID).1 0 1 (by decide),
   (set_unwrap_guard (fun i => SetSrc.wrapper i) emptyUUID).2.1 0 0 rfl,
   (set_unwrap_guard (fun _ => SetSrc.goNil) emptyUUID).2.2.1 _ (by decide),
   (set_unwrap_guard (fun _ => SetSrc.goNil) emptyUUID).2.2.2 0 (by decide) (by decide)⟩

end PgtypeUUID
